import Mathlib

/-!
Shallow embedding of the query-parameter normalization and filter-construction
pipeline of the repository (src/utils/parseQueryParams.ts, the orders and
customers controllers).  Strings are modelled as lists of characters; JS
numbers as exact rationals (floating-point rounding is not modelled); thrown
BadRequestError / NotFoundError conditions as an explicit error kind in an
Except result.
-/

/-- Strings of the embedded program: JS strings as lists of characters. -/
abbrev Str := List Char

/-- ASCII subset of the JS whitespace class used by String.prototype.trim and
the regex class backslash-s (Unicode space classes are not modelled). -/
def isJsSpace (c : Char) : Bool :=
  c = ' ' || c = '\t' || c = '\n' || c = '\r' || c = '\x0b' || c = '\x0c'

/-- JS String.prototype.trim: drop whitespace from both ends. -/
def jsTrim (s : Str) : Str :=
  ((s.dropWhile isJsSpace).reverse.dropWhile isJsSpace).reverse

/-- Numeric value of a list of decimal digit characters. -/
def digitsVal (l : Str) : Nat :=
  l.foldl (fun a c => 10 * a + (c.toNat - 48)) 0

/-- Nonempty all-decimal-digits test. -/
def allDigits (l : Str) : Bool :=
  !l.isEmpty && l.all Char.isDigit

/-- JS parseInt(s, 10): skip leading whitespace, optional sign, then the
longest prefix of decimal digits; NaN (none) when that prefix is empty. -/
def parseIntJS (l : Str) : Option Int :=
  let l1 := l.dropWhile isJsSpace
  let sign : Int × Str :=
    match l1 with
    | '+' :: r => (1, r)
    | '-' :: r => (-1, r)
    | _ => (1, l1)
  let ds := sign.2.takeWhile Char.isDigit
  if ds.isEmpty then none else some (sign.1 * (digitsVal ds : Int))

/-- Raw query-parameter field value: absent, a single string, or an array of
strings (a repeated query key). -/
inductive RawValue where
  | absent : RawValue
  | str : Str → RawValue
  | arr : List Str → RawValue
deriving DecidableEq, Repr

/-- Error conditions thrown by the pipeline (BadRequestError / NotFoundError
instances, distinguished by their throw site and message shape). -/
inductive ErrKind where
  | invalidParameterShape : ErrKind
  | invalidParameter : Str → ErrKind
  | invalidSortOrder : ErrKind
  | invalidSearchTerm : ErrKind
  | notFound : ErrKind
deriving DecidableEq, Repr

/-- getSingleString of parseQueryParams: one value out of string-or-array;
an array of two or more elements is rejected. -/
def getSingleString : RawValue → Except ErrKind (Option Str)
  | RawValue.absent => Except.ok none
  | RawValue.str s => Except.ok (some s)
  | RawValue.arr l =>
    match l with
    | [] => Except.ok none
    | [a] => Except.ok (some a)
    | _ => Except.error ErrKind.invalidParameterShape

/-- String the limit normalizer extracts from its untyped argument:
a plain string itself, the first element of an array (or "" when empty),
and "" for anything else. -/
def limitStrOf : RawValue → Str
  | RawValue.str s => s
  | RawValue.arr l => l.headD []
  | RawValue.absent => []

/-- normalizeLimit of parseQueryParams: parseInt the extracted string; on NaN
or a non-positive value fall back to the default, otherwise cap at it. -/
def normalizeLimit (limitQuery : RawValue) (defaultLim : Int) : Int :=
  match parseIntJS (limitStrOf limitQuery) with
  | none => defaultLim
  | some n => if n ≤ 0 then defaultLim else min n defaultLim

/-- JS number as produced by Number(string): NaN, a signed infinity, or a
finite value modelled as an exact rational (no rounding to binary64). -/
inductive JsNum where
  | nan : JsNum
  | inf : Bool → JsNum
  | num : Rat → JsNum
deriving DecidableEq, Repr

/-- Split a list at the first character satisfying p, none when absent. -/
def splitOnce (p : Char → Bool) : Str → Option (Str × Str)
  | [] => none
  | c :: rest =>
    if p c then some ([], rest)
    else
      match splitOnce p rest with
      | some (a, b) => some (c :: a, b)
      | none => none

/-- Mantissa of a decimal literal: digits, optionally with one dot, at least
one digit overall; value returned as (scaled integer, fraction length). -/
def parseMantissa (l : Str) : Option (Nat × Nat) :=
  match splitOnce (fun c => c = '.') l with
  | none => if allDigits l then some (digitsVal l, 0) else none
  | some (ip, fp) =>
    if ip.all Char.isDigit && fp.all Char.isDigit && (!ip.isEmpty || !fp.isEmpty) then
      some (digitsVal ip * 10 ^ fp.length + digitsVal fp, fp.length)
    else none

/-- Optionally signed run of decimal digits (the exponent of a literal). -/
def parseSignedDigits (l : Str) : Option Int :=
  match l with
  | '+' :: r => if allDigits r then some (digitsVal r : Int) else none
  | '-' :: r => if allDigits r then some (-(digitsVal r : Int)) else none
  | _ => if allDigits l then some (digitsVal l : Int) else none

/-- Unsigned decimal literal with optional fraction and exponent. -/
def parseDecBody (l : Str) : Option Rat :=
  let parts : Str × Option Str :=
    match splitOnce (fun c => c = 'e' || c = 'E') l with
    | none => (l, none)
    | some (a, b) => (a, some b)
  match parseMantissa parts.1 with
  | none => none
  | some (m, flen) =>
    let base : Rat := (m : Rat) / 10 ^ flen
    match parts.2 with
    | none => some base
    | some e =>
      match parseSignedDigits e with
      | none => none
      | some ex => some (if 0 ≤ ex then base * 10 ^ ex.toNat else base / 10 ^ (-ex).toNat)

/-- Hexadecimal digit test. -/
def isHexDigit (c : Char) : Bool :=
  c.isDigit || ('a' ≤ c && c ≤ 'f') || ('A' ≤ c && c ≤ 'F')

/-- Value of a hexadecimal digit. -/
def hexVal (c : Char) : Nat :=
  if c.isDigit then c.toNat - 48 else if 'a' ≤ c then c.toNat - 87 else c.toNat - 55

/-- Fold a digit list in a given radix. -/
def radixVal (b : Nat) (f : Char → Nat) (l : Str) : Nat :=
  l.foldl (fun a c => b * a + f c) 0

/-- Octal digit test. -/
def isOctDigit (c : Char) : Bool := '0' ≤ c && c ≤ '7'

/-- Binary digit test. -/
def isBinDigit (c : Char) : Bool := c = '0' || c = '1'

/-- JS Number(string): trim whitespace, "" is zero, then an unsigned hex,
octal or binary literal, a signed Infinity, or a signed decimal literal;
anything else is NaN. -/
def numberJS (s : Str) : JsNum :=
  let l := jsTrim s
  if l.isEmpty then JsNum.num 0
  else
    match l with
    | '0' :: 'x' :: r =>
      if !r.isEmpty && r.all isHexDigit then JsNum.num (radixVal 16 hexVal r : Nat) else JsNum.nan
    | '0' :: 'X' :: r =>
      if !r.isEmpty && r.all isHexDigit then JsNum.num (radixVal 16 hexVal r : Nat) else JsNum.nan
    | '0' :: 'o' :: r =>
      if !r.isEmpty && r.all isOctDigit then JsNum.num (radixVal 8 (fun c => c.toNat - 48) r : Nat) else JsNum.nan
    | '0' :: 'O' :: r =>
      if !r.isEmpty && r.all isOctDigit then JsNum.num (radixVal 8 (fun c => c.toNat - 48) r : Nat) else JsNum.nan
    | '0' :: 'b' :: r =>
      if !r.isEmpty && r.all isBinDigit then JsNum.num (radixVal 2 (fun c => c.toNat - 48) r : Nat) else JsNum.nan
    | '0' :: 'B' :: r =>
      if !r.isEmpty && r.all isBinDigit then JsNum.num (radixVal 2 (fun c => c.toNat - 48) r : Nat) else JsNum.nan
    | _ =>
      let sb : Int × Str :=
        match l with
        | '+' :: r => (1, r)
        | '-' :: r => (-1, r)
        | _ => (1, l)
      if sb.2 = "Infinity".toList then JsNum.inf (sb.1 = 1)
      else
        match parseDecBody sb.2 with
        | some q => JsNum.num ((sb.1 : Rat) * q)
        | none => JsNum.nan

/-- Does a JS number pass the positive-integer test of parsePositiveInt
(Number.isInteger and strictly positive)? -/
def posIntVal : JsNum → Bool
  | JsNum.num q => decide (q.den = 1 ∧ 0 < q)
  | _ => false

/-- parsePositiveInt of parseQueryParams: falsy input gives the default;
otherwise Number(value) must be an integer greater than zero. -/
def parsePositiveInt (value : Option Str) (defaultValue : Option Rat) :
    Except ErrKind (Option Rat) :=
  match value with
  | none => Except.ok defaultValue
  | some s =>
    if s.isEmpty then Except.ok defaultValue
    else
      match numberJS s with
      | JsNum.num q =>
        if q.den = 1 ∧ 0 < q then Except.ok (some q)
        else Except.error (ErrKind.invalidParameter s)
      | _ => Except.error (ErrKind.invalidParameter s)

/-- parseNonNegativeNumber of parseQueryParams: falsy input gives absence;
otherwise Number(value) must be finite and not negative. -/
def parseNonNegativeNumber (value : Option Str) : Except ErrKind (Option Rat) :=
  match value with
  | none => Except.ok none
  | some s =>
    if s.isEmpty then Except.ok none
    else
      match numberJS s with
      | JsNum.num q =>
        if q < 0 then Except.error (ErrKind.invalidParameter s) else Except.ok (some q)
      | _ => Except.error (ErrKind.invalidParameter s)

/-- JS Date value: local calendar day fields plus the millisecond of the day
(what setHours mutates). -/
structure JsDate where
  year : Int
  month : Nat
  day : Nat
  msOfDay : Nat
deriving DecidableEq, Repr

/-- setHours(23, 59, 59, 999) on a date: same calendar day, last millisecond. -/
def endOfDay (d : JsDate) : JsDate :=
  { d with msOfDay := 86399999 }

/-- Modelled subset of new Date(string): the ISO date-only form YYYY-MM-DD
(midnight); other accepted formats and day-in-month bounds are omitted, which
is sound for the claims since they only exercise the absent path and
already-parsed dates. -/
def jsParseDate (s : Str) : Option JsDate :=
  match s with
  | [y1, y2, y3, y4, '-', m1, m2, '-', d1, d2] =>
    if [y1, y2, y3, y4, m1, m2, d1, d2].all Char.isDigit then
      let m := digitsVal [m1, m2]
      let d := digitsVal [d1, d2]
      if 1 ≤ m && m ≤ 12 && 1 ≤ d && d ≤ 31 then
        some ⟨(digitsVal [y1, y2, y3, y4] : Nat), m, d, 0⟩
      else none
    else none
  | _ => none

/-- parseDate of parseQueryParams: falsy input gives absence; an unparsable
date (NaN getTime) is rejected. -/
def parseDate (value : Option Str) : Except ErrKind (Option JsDate) :=
  match value with
  | none => Except.ok none
  | some s =>
    if s.isEmpty then Except.ok none
    else
      match jsParseDate s with
      | some d => Except.ok (some d)
      | none => Except.error (ErrKind.invalidParameter s)

/-- Sort direction enum of the normalized records. -/
inductive SortOrder where
  | asc : SortOrder
  | desc : SortOrder
deriving DecidableEq, Repr

/-- parseSortOrder of parseQueryParams: falsy input gives the default
direction; anything but "asc" or "desc" is rejected. -/
def parseSortOrder (value : Option Str) (defaultValue : SortOrder) :
    Except ErrKind SortOrder :=
  match value with
  | none => Except.ok defaultValue
  | some s =>
    if s.isEmpty then Except.ok defaultValue
    else if s = "asc".toList then Except.ok SortOrder.asc
    else if s = "desc".toList then Except.ok SortOrder.desc
    else Except.error ErrKind.invalidSortOrder

/-- Character class [a-zA-Z0-9 whitespace hyphen underscore dot plus percent]
accepted by the search sanitizer. -/
def allowedChar (c : Char) : Bool :=
  c.isAlpha || c.isDigit || isJsSpace c ||
    c = '-' || c = '_' || c = '.' || c = '+' || c = '%'

/-- Regex metacharacter class escaped by the sanitizer and by escapeRegExp. -/
def metaChar (c : Char) : Bool :=
  c = '.' || c = '*' || c = '+' || c = '?' || c = '^' || c = '$' ||
    c = '\x7b' || c = '\x7d' || c = '(' || c = ')' || c = '|' ||
    c = '[' || c = ']' || c = '\\'

/-- Replace of the sanitizer and escapeRegExp: prefix every regex
metacharacter with a backslash. -/
def escapeRegex (l : Str) : Str :=
  l.flatMap (fun c => if metaChar c then ['\\', c] else [c])

/-- sanitizeSearch of parseQueryParams: falsy or all-whitespace input gives
absence; a trimmed value with a character outside the allow-list is rejected;
an accepted value is returned with regex metacharacters escaped. -/
def sanitizeSearch (value : Option Str) : Except ErrKind (Option Str) :=
  match value with
  | none => Except.ok none
  | some s =>
    if s.isEmpty then Except.ok none
    else
      let trimmed := jsTrim s
      if trimmed.isEmpty then Except.ok none
      else if trimmed.all allowedChar then Except.ok (some (escapeRegex trimmed))
      else Except.error ErrKind.invalidSearchTerm

/-- Raw order list query bag (each field absent, one string, or an array). -/
structure OrderQueryParams where
  page : RawValue := RawValue.absent
  limit : RawValue := RawValue.absent
  sortField : RawValue := RawValue.absent
  sortOrder : RawValue := RawValue.absent
  status : RawValue := RawValue.absent
  totalAmountFrom : RawValue := RawValue.absent
  totalAmountTo : RawValue := RawValue.absent
  orderDateFrom : RawValue := RawValue.absent
  orderDateTo : RawValue := RawValue.absent
  search : RawValue := RawValue.absent
deriving DecidableEq, Repr

/-- Normalized order list parameters. -/
structure NormalizedOrderParams where
  page : Rat
  limit : Int
  sortField : Str
  sortOrder : SortOrder
  status : Option Str
  totalAmountFrom : Option Rat
  totalAmountTo : Option Rat
  orderDateFrom : Option JsDate
  orderDateTo : Option JsDate
  search : Option Str
deriving DecidableEq, Repr

/-- Raw customer list query bag. -/
structure CustomerQueryParams where
  page : RawValue := RawValue.absent
  limit : RawValue := RawValue.absent
  sortField : RawValue := RawValue.absent
  sortOrder : RawValue := RawValue.absent
  registrationDateFrom : RawValue := RawValue.absent
  registrationDateTo : RawValue := RawValue.absent
  lastOrderDateFrom : RawValue := RawValue.absent
  lastOrderDateTo : RawValue := RawValue.absent
  totalAmountFrom : RawValue := RawValue.absent
  totalAmountTo : RawValue := RawValue.absent
  orderCountFrom : RawValue := RawValue.absent
  orderCountTo : RawValue := RawValue.absent
  search : RawValue := RawValue.absent
deriving DecidableEq, Repr

/-- Normalized customer list parameters. -/
structure NormalizedCustomerParams where
  page : Rat
  limit : Int
  sortField : Str
  sortOrder : SortOrder
  registrationDateFrom : Option JsDate
  registrationDateTo : Option JsDate
  lastOrderDateFrom : Option JsDate
  lastOrderDateTo : Option JsDate
  totalAmountFrom : Option Rat
  totalAmountTo : Option Rat
  orderCountFrom : Option Rat
  orderCountTo : Option Rat
  search : Option Str
deriving DecidableEq, Repr

/-- Reinject the option produced by getSingleString into the untyped argument
shape normalizeLimit inspects (undefined or a plain string). -/
def optToRaw : Option Str → RawValue
  | none => RawValue.absent
  | some s => RawValue.str s

/-- normalizeOrderQueryParams of parseQueryParams: fields are normalized in
source order with the first thrown error propagated. -/
def normalizeOrderQueryParams (query : OrderQueryParams) (defaultLimit : Int) :
    Except ErrKind NormalizedOrderParams := do
  let page := (← parsePositiveInt (← getSingleString query.page) (some 1)).getD 1
  let limit := normalizeLimit (optToRaw (← getSingleString query.limit)) defaultLimit
  let sortField := (← getSingleString query.sortField).getD ("createdAt".toList)
  let sortOrder ← parseSortOrder (← getSingleString query.sortOrder) SortOrder.desc
  let status ← getSingleString query.status
  let totalAmountFrom ← parseNonNegativeNumber (← getSingleString query.totalAmountFrom)
  let totalAmountTo ← parseNonNegativeNumber (← getSingleString query.totalAmountTo)
  let orderDateFrom ← parseDate (← getSingleString query.orderDateFrom)
  let orderDateTo ← parseDate (← getSingleString query.orderDateTo)
  let search ← sanitizeSearch (← getSingleString query.search)
  pure { page, limit, sortField, sortOrder, status, totalAmountFrom,
         totalAmountTo, orderDateFrom, orderDateTo, search }

/-- normalizeCustomerQueryParams of parseQueryParams. -/
def normalizeCustomerQueryParams (query : CustomerQueryParams) (defaultLimit : Int) :
    Except ErrKind NormalizedCustomerParams := do
  let page := (← parsePositiveInt (← getSingleString query.page) (some 1)).getD 1
  let limit := normalizeLimit (optToRaw (← getSingleString query.limit)) defaultLimit
  let sortField := (← getSingleString query.sortField).getD ("createdAt".toList)
  let sortOrder ← parseSortOrder (← getSingleString query.sortOrder) SortOrder.desc
  let registrationDateFrom ← parseDate (← getSingleString query.registrationDateFrom)
  let registrationDateTo ← parseDate (← getSingleString query.registrationDateTo)
  let lastOrderDateFrom ← parseDate (← getSingleString query.lastOrderDateFrom)
  let lastOrderDateTo ← parseDate (← getSingleString query.lastOrderDateTo)
  let totalAmountFrom ← parseNonNegativeNumber (← getSingleString query.totalAmountFrom)
  let totalAmountTo ← parseNonNegativeNumber (← getSingleString query.totalAmountTo)
  let orderCountFrom ← parseNonNegativeNumber (← getSingleString query.orderCountFrom)
  let orderCountTo ← parseNonNegativeNumber (← getSingleString query.orderCountTo)
  let search ← sanitizeSearch (← getSingleString query.search)
  pure { page, limit, sortField, sortOrder, registrationDateFrom,
         registrationDateTo, lastOrderDateFrom, lastOrderDateTo,
         totalAmountFrom, totalAmountTo, orderCountFrom, orderCountTo, search }

/-- Inclusive range condition over dates, either side optional. -/
structure DateRange where
  gte : Option JsDate
  lte : Option JsDate
deriving DecidableEq, Repr

/-- Inclusive range condition over numbers, either side optional. -/
structure NumRange where
  gte : Option Rat
  lte : Option Rat
deriving DecidableEq, Repr

/-- Range and equality conditions built by getOrders of the orders controller
(status and search handling aside). -/
structure OrderFilters where
  totalAmount : Option NumRange
  createdAt : Option DateRange
deriving DecidableEq, Repr

/-- Filter construction of getOrders: the createdAt upper bound is the parsed
orderDateTo unchanged (no end-of-day extension in this controller). -/
def buildOrderFilters (p : NormalizedOrderParams) : OrderFilters :=
  { totalAmount :=
      if p.totalAmountFrom.isSome || p.totalAmountTo.isSome then
        some ⟨p.totalAmountFrom, p.totalAmountTo⟩
      else none,
    createdAt :=
      if p.orderDateFrom.isSome || p.orderDateTo.isSome then
        some ⟨p.orderDateFrom, p.orderDateTo⟩
      else none }

/-- Range conditions built by getCustomers (identical in both customer
controller implementations). -/
structure CustomerFilters where
  createdAt : Option DateRange
  lastOrderDate : Option DateRange
  totalAmount : Option NumRange
  orderCount : Option NumRange
deriving DecidableEq, Repr

/-- Filter construction of getCustomers: each supplied date upper bound is
extended to the last millisecond of its calendar day via setHours. -/
def buildCustomerFilters (p : NormalizedCustomerParams) : CustomerFilters :=
  { createdAt :=
      if p.registrationDateFrom.isSome || p.registrationDateTo.isSome then
        some ⟨p.registrationDateFrom, p.registrationDateTo.map endOfDay⟩
      else none,
    lastOrderDate :=
      if p.lastOrderDateFrom.isSome || p.lastOrderDateTo.isSome then
        some ⟨p.lastOrderDateFrom, p.lastOrderDateTo.map endOfDay⟩
      else none,
    totalAmount :=
      if p.totalAmountFrom.isSome || p.totalAmountTo.isSome then
        some ⟨p.totalAmountFrom, p.totalAmountTo⟩
      else none,
    orderCount :=
      if p.orderCountFrom.isSome || p.orderCountTo.isSome then
        some ⟨p.orderCountFrom, p.orderCountTo⟩
      else none }

/-- Numeric sort direction written into the sort specification. -/
def dirOf : SortOrder → Int
  | SortOrder.desc => -1
  | SortOrder.asc => 1

/-- allowedSortFields of both customer controller implementations. -/
def customerAllowedSortFields : List Str :=
  ["createdAt".toList, "totalAmount".toList, "orderCount".toList, "name".toList]

/-- Sort specification of getCustomers: the sort field is validated against
the allow-list with silent fallback to createdAt. -/
def buildCustomerSort (sortField : Str) (so : SortOrder) : Str × Int :=
  ((if sortField ∈ customerAllowedSortFields then sortField else "createdAt".toList),
    dirOf so)

/-- Sort specification of getOrders: when sortField is truthy, it is used
as-is with no allow-list validation. -/
def buildOrderSort (sortField : Str) (so : SortOrder) : List (Str × Int) :=
  if sortField.isEmpty then [] else [(sortField, dirOf so)]

/-- Search step of getCustomers in src/backend/src/controllers/customers.ts:
a truthy search of at most 50 characters yields the escaped pattern used in
the disjunction (the database lookup itself is external I/O); anything else,
including an absent search, is rejected with NotFoundError. -/
def customersSearchBackend (search : Option Str) : Except ErrKind (Option Str) :=
  match search with
  | some s =>
    if !s.isEmpty && s.length ≤ 50 then Except.ok (some (escapeRegex s))
    else Except.error ErrKind.notFound
  | none => Except.error ErrKind.notFound

/-- Search step of the near-duplicate getCustomers implementation: same
guard, but an absent or out-of-policy search just skips the search filter. -/
def customersSearchDup (search : Option Str) : Except ErrKind (Option Str) :=
  match search with
  | some s =>
    if !s.isEmpty && s.length ≤ 50 then Except.ok (some (escapeRegex s))
    else Except.ok none
  | none => Except.ok none

-- JSON-like runtime value of req.query / req.body, with arrays and objects
-- as dedicated mutual list types (object keys ordered as enumerated).
mutual
inductive JsValue where
  | vstr : Str → JsValue
  | vnum : Rat → JsValue
  | vbool : Bool → JsValue
  | vnull : JsValue
  | varr : JsArr → JsValue
  | vobj : JsObj → JsValue
inductive JsArr where
  | anil : JsArr
  | acons : JsValue → JsArr → JsArr
inductive JsObj where
  | onil : JsObj
  | ocons : Str → JsValue → JsObj → JsObj
end

/-- Key test of sanitizeObject: keys starting with the dollar operator
sentinel or containing a dot path separator are dangerous. -/
def isSafeKey (k : Str) : Bool :=
  !(match k with
    | '$' :: _ => true
    | _ => false) && !k.contains '.'

-- sanitizeObject of the customers controllers: primitives pass through,
-- arrays map recursively, and objects drop every dangerous key while
-- sanitizing the kept values recursively.
mutual
def sanitizeObject : JsValue → JsValue
  | JsValue.varr a => JsValue.varr (sanitizeArr a)
  | JsValue.vobj o => JsValue.vobj (sanitizeObj o)
  | v => v
def sanitizeArr : JsArr → JsArr
  | JsArr.anil => JsArr.anil
  | JsArr.acons v rest => JsArr.acons (sanitizeObject v) (sanitizeArr rest)
def sanitizeObj : JsObj → JsObj
  | JsObj.onil => JsObj.onil
  | JsObj.ocons k v rest =>
    if isSafeKey k then JsObj.ocons k (sanitizeObject v) (sanitizeObj rest)
    else sanitizeObj rest
end

-- Does every key at every nesting depth of a value pass isSafeKey?
mutual
def keysSafeV : JsValue → Bool
  | JsValue.varr a => keysSafeA a
  | JsValue.vobj o => keysSafeO o
  | _ => true
def keysSafeA : JsArr → Bool
  | JsArr.anil => true
  | JsArr.acons v rest => keysSafeV v && keysSafeA rest
def keysSafeO : JsObj → Bool
  | JsObj.onil => true
  | JsObj.ocons k v rest => isSafeKey k && keysSafeV v && keysSafeO rest
end

/-! Helper lemmas about dropWhile, trimming and escaping. -/

theorem dropWhile_self (p : Char → Bool) (l : Str) :
    (l.dropWhile p).dropWhile p = l.dropWhile p := by
  induction l with
  | nil => rfl
  | cons c rest ih =>
    by_cases h : p c = true
    · simp [List.dropWhile_cons, h, ih]
    · simp [List.dropWhile_cons, h]

theorem exists_append_dropWhile (p : Char → Bool) (l : Str) :
    ∃ k, l = k ++ l.dropWhile p := by
  obtain ⟨k, hk⟩ := List.dropWhile_suffix (l := l) p
  exact ⟨k, hk.symm⟩

theorem head_not_of_dropWhile_eq_self (p : Char → Bool) (c : Char) (r : Str)
    (h : (c :: r).dropWhile p = c :: r) : p c = false := by
  by_cases hc : p c = true
  · rw [List.dropWhile_cons, if_pos hc] at h
    have hle := (List.dropWhile_sublist (l := r) p).length_le
    have hlen := congrArg List.length h
    simp at hlen
    omega
  · simpa using hc

theorem dropWhile_eq_self_of_head (p : Char → Bool) (l : Str)
    (h : ∀ c r, l = c :: r → p c = false) : l.dropWhile p = l := by
  cases l with
  | nil => rfl
  | cons c r =>
    rw [List.dropWhile_cons, if_neg]
    simp [h c r rfl]

theorem exists_trimBack_prefix (p : Char → Bool) (l : Str) :
    ∃ k, l = (l.reverse.dropWhile p).reverse ++ k := by
  obtain ⟨k, hk⟩ := exists_append_dropWhile p l.reverse
  refine ⟨k.reverse, ?_⟩
  have h := congrArg List.reverse hk
  simpa using h

theorem trimBack_fixed_of_dropWhile_fixed (p : Char → Bool) (l : Str)
    (hl : l.dropWhile p = l) :
    ((l.reverse.dropWhile p).reverse).dropWhile p = (l.reverse.dropWhile p).reverse := by
  apply dropWhile_eq_self_of_head
  intro c r hcr
  obtain ⟨k, hk⟩ := exists_trimBack_prefix p l
  rw [hcr] at hk
  have hl' : l = c :: (r ++ k) := by simpa using hk
  rw [hl'] at hl
  exact head_not_of_dropWhile_eq_self p c (r ++ k) hl

theorem jsTrim_idem (s : Str) : jsTrim (jsTrim s) = jsTrim s := by
  unfold jsTrim
  have h1 := trimBack_fixed_of_dropWhile_fixed isJsSpace (s.dropWhile isJsSpace)
    (dropWhile_self isJsSpace s)
  rw [h1, List.reverse_reverse, dropWhile_self]

theorem mem_dropWhile_subset (p : Char → Bool) (l : Str) (c : Char)
    (h : c ∈ l.dropWhile p) : c ∈ l :=
  (List.dropWhile_sublist p).mem h

theorem mem_jsTrim_subset (s : Str) (c : Char) (h : c ∈ jsTrim s) : c ∈ s := by
  unfold jsTrim at h
  rw [List.mem_reverse] at h
  have h2 := mem_dropWhile_subset _ _ _ h
  rw [List.mem_reverse] at h2
  exact mem_dropWhile_subset _ _ _ h2

theorem escapeRegex_id (l : Str) (h : ∀ c ∈ l, metaChar c = false) :
    escapeRegex l = l := by
  induction l with
  | nil => rfl
  | cons a r ih =>
    have ha : metaChar a = false := h a (List.mem_cons_self a r)
    have hr := ih fun c hc => h c (List.mem_cons_of_mem a hc)
    simp [escapeRegex, ha] at hr ⊢
    exact hr

theorem allowed_meta_char (c : Char) (hm : metaChar c = true)
    (ha : allowedChar c = true) : c = '.' ∨ c = '+' := by
  unfold metaChar at hm
  simp only [Bool.or_eq_true, decide_eq_true_eq] at hm
  rcases hm with
    ((((((((((((h | h) | h) | h) | h) | h) | h) | h) | h) | h) | h) | h) | h) | h
  all_goals first
    | (left; exact h)
    | (right; exact h)
    | (subst h; exact absurd ha (by decide))

-- Mutual induction for the sanitizeObject invariant.
mutual
theorem sanitizeObject_keysSafe : ∀ v : JsValue, keysSafeV (sanitizeObject v) = true
  | JsValue.vstr _ => rfl
  | JsValue.vnum _ => rfl
  | JsValue.vbool _ => rfl
  | JsValue.vnull => rfl
  | JsValue.varr a => by
    simpa [sanitizeObject, keysSafeV] using sanitizeArr_keysSafe a
  | JsValue.vobj o => by
    simpa [sanitizeObject, keysSafeV] using sanitizeObj_keysSafe o
theorem sanitizeArr_keysSafe : ∀ a : JsArr, keysSafeA (sanitizeArr a) = true
  | JsArr.anil => rfl
  | JsArr.acons v rest => by
    simp [sanitizeArr, keysSafeA, sanitizeObject_keysSafe v, sanitizeArr_keysSafe rest]
theorem sanitizeObj_keysSafe : ∀ o : JsObj, keysSafeO (sanitizeObj o) = true
  | JsObj.onil => rfl
  | JsObj.ocons k v rest => by
    by_cases hk : isSafeKey k = true
    · simp [sanitizeObj, hk, keysSafeO, sanitizeObject_keysSafe v, sanitizeObj_keysSafe rest]
    · simp [sanitizeObj, hk, sanitizeObj_keysSafe rest]
end

/-- C1: for every limit input (absent, string, or string array) and every
default d, normalizeLimit returns an integer at most d; it returns exactly d
when the input is absent, when the extracted string does not parse as a
number, and when it parses to a non-positive value; being a total function it
never fails. -/
theorem normalizeLimit_capped (v : RawValue) (d : Int) :
    normalizeLimit v d ≤ d ∧
    normalizeLimit RawValue.absent d = d ∧
    (parseIntJS (limitStrOf v) = none → normalizeLimit v d = d) ∧
    (∀ n : Int, parseIntJS (limitStrOf v) = some n → n ≤ 0 →
      normalizeLimit v d = d) := by
  refine ⟨?_, by rfl, ?_, ?_⟩
  · rcases h : parseIntJS (limitStrOf v) with _ | n
    · simp [normalizeLimit, h]
    · by_cases hn : n ≤ 0
      · simp [normalizeLimit, h, hn]
      · simp [normalizeLimit, h, hn, min_le_right]
  · intro h
    simp [normalizeLimit, h]
  · intro n h hn
    simp [normalizeLimit, h, hn]

/-- Witness for C1 at concrete inputs: an over-limit request is capped, an
unparsable one and a negative one fall back to the default. -/
theorem normalizeLimit_capped_witness :
    normalizeLimit (RawValue.str ("999".toList)) 10 ≤ 10 ∧
    normalizeLimit (RawValue.str ("abc".toList)) 10 = 10 ∧
    normalizeLimit (RawValue.str ("-3".toList)) 10 = 10 :=
  ⟨(normalizeLimit_capped (RawValue.str ("999".toList)) 10).1,
   (normalizeLimit_capped (RawValue.str ("abc".toList)) 10).2.2.1 (by decide),
   (normalizeLimit_capped (RawValue.str ("-3".toList)) 10).2.2.2 (-3) (by decide)
     (by decide)⟩

/-- C5: any search string whose trimmed value contains a character outside
the allow-list is rejected by sanitizeSearch with the invalid-search-term
condition. -/
theorem sanitizeSearch_rejects_disallowed (s : Str)
    (h : ∃ c ∈ jsTrim s, allowedChar c = false) :
    sanitizeSearch (some s) = Except.error ErrKind.invalidSearchTerm := by
  obtain ⟨c, hc, hca⟩ := h
  have hne : (jsTrim s).isEmpty = false := by
    cases htr : jsTrim s with
    | nil => rw [htr] at hc; cases hc
    | cons a t => rfl
  have hs : s.isEmpty = false := by
    cases hse : s with
    | nil => rw [hse] at hc; cases hc
    | cons a t => rfl
  have hall : (jsTrim s).all allowedChar = false := by
    rw [List.all_eq_false]
    exact ⟨c, hc, by simp [hca]⟩
  simp [sanitizeSearch, hs, hne, hall]

/-- Witness for C5: a search containing an apostrophe (O-apostrophe-Brien)
fails with the invalid-search-term condition. -/
theorem sanitizeSearch_rejects_disallowed_witness :
    sanitizeSearch (some ('O' :: Char.ofNat 39 :: "Brien".toList)) =
      Except.error ErrKind.invalidSearchTerm :=
  sanitizeSearch_rejects_disallowed _ (by decide)

/-- C6: getSingleString fails with the invalid-parameter-shape condition
exactly when the raw value is an array of more than one element; a
one-element array yields its element, a plain string yields itself, and an
absent value yields absence. -/
theorem getSingleString_spec (v : RawValue) :
    (getSingleString v = Except.error ErrKind.invalidParameterShape ↔
      ∃ l, v = RawValue.arr l ∧ 1 < l.length) ∧
    (∀ a : Str, getSingleString (RawValue.arr [a]) = Except.ok (some a)) ∧
    (∀ s : Str, getSingleString (RawValue.str s) = Except.ok (some s)) ∧
    getSingleString RawValue.absent = Except.ok none := by
  refine ⟨⟨?_, ?_⟩, fun a => rfl, fun s => rfl, rfl⟩
  · intro h
    cases v with
    | absent => simp [getSingleString] at h
    | str s => simp [getSingleString] at h
    | arr l =>
      rcases l with _ | ⟨a, _ | ⟨b, t⟩⟩
      · simp [getSingleString] at h
      · simp [getSingleString] at h
      · exact ⟨a :: b :: t, rfl, by simp⟩
  · rintro ⟨l, rfl, hl⟩
    rcases l with _ | ⟨a, _ | ⟨b, t⟩⟩
    · simp at hl
    · simp at hl
    · rfl

/-- Witness for C6: a two-element array is rejected. -/
theorem getSingleString_spec_witness :
    getSingleString (RawValue.arr ["a".toList, "b".toList]) =
      Except.error ErrKind.invalidParameterShape :=
  ((getSingleString_spec (RawValue.arr ["a".toList, "b".toList])).1).mpr
    ⟨["a".toList, "b".toList], rfl, by decide⟩

unseal Rat.mul Rat.inv in
/-- C8: the scenario normalizeOrderQueryParams of page "2" and limit "999"
with default limit 10 yields page 2, limit capped to 10, default sort field
createdAt, default direction desc, and every optional field absent. -/
theorem normalizeOrder_scenario_limit_capped :
    normalizeOrderQueryParams
      { page := RawValue.str ("2".toList), limit := RawValue.str ("999".toList) } 10 =
    Except.ok
      { page := 2, limit := 10, sortField := "createdAt".toList,
        sortOrder := SortOrder.desc, status := none, totalAmountFrom := none,
        totalAmountTo := none, orderDateFrom := none, orderDateTo := none,
        search := none } := by
  rfl

/-- C9: a nonempty string whose JS numeric value is an integer greater than
zero is accepted by parsePositiveInt with exactly that value; a nonempty
string whose numeric value fails the positive-integer test (not a number,
infinite, fractional, zero or negative) is rejected with an
invalid-parameter condition citing the raw string. -/
theorem parsePositiveInt_spec (s : Str) (dflt : Option Rat) (hs : s ≠ []) :
    (∀ q : Rat, numberJS s = JsNum.num q → q.den = 1 → 0 < q →
      parsePositiveInt (some s) dflt = Except.ok (some q)) ∧
    (posIntVal (numberJS s) = false →
      parsePositiveInt (some s) dflt = Except.error (ErrKind.invalidParameter s)) := by
  have hs' : s.isEmpty = false := by
    cases s with
    | nil => exact absurd rfl hs
    | cons a t => rfl
  constructor
  · intro q hq hden hpos
    simp [parsePositiveInt, hs', hq, hden, hpos]
  · intro h
    rcases hq : numberJS s with _ | b | q
    · simp [parsePositiveInt, hs', hq]
    · simp [parsePositiveInt, hs', hq]
    · rw [hq] at h
      have h' : ¬(q.den = 1 ∧ 0 < q) := by simpa [posIntVal] using h
      simp [parsePositiveInt, hs', hq, h']

unseal Rat.mul Rat.inv in
/-- Witness for C9: "42" parses to 42; "0" and "1.5" are rejected citing the
raw value. -/
theorem parsePositiveInt_spec_witness :
    parsePositiveInt (some ("42".toList)) none = Except.ok (some 42) ∧
    parsePositiveInt (some ("0".toList)) none =
      Except.error (ErrKind.invalidParameter ("0".toList)) ∧
    parsePositiveInt (some ("1.5".toList)) none =
      Except.error (ErrKind.invalidParameter ("1.5".toList)) :=
  ⟨(parsePositiveInt_spec ("42".toList) none (by decide)).1 42 (by decide)
      (by decide) (by decide),
   (parsePositiveInt_spec ("0".toList) none (by decide)).2 (by decide),
   (parsePositiveInt_spec ("1.5".toList) none (by decide)).2 (by decide)⟩

/-- C10: the customers controller of src/backend rejects an absent search
term with NotFound, while the near-duplicate implementation proceeds without
a search filter; a search that trims to empty is normalized to absence. -/
theorem customers_search_mandatory :
    customersSearchBackend none = Except.error ErrKind.notFound ∧
    customersSearchDup none = Except.ok none ∧
    sanitizeSearch (some ("   ".toList)) = Except.ok none :=
  ⟨rfl, rfl, rfl⟩

/-- C2 counterexample: the allowed input "." is accepted and escaped to a
backslash-dot, but re-sanitizing that output fails, because the inserted
backslash is not in the allow-list — so the sanitizer is not idempotent on
all allowed inputs. -/
theorem sanitizeSearch_not_idempotent_on_dot :
    (∀ c ∈ ['.'], allowedChar c = true) ∧
    sanitizeSearch (some ['.']) = Except.ok (some ['\\', '.']) ∧
    sanitizeSearch (some ['\\', '.']) = Except.error ErrKind.invalidSearchTerm :=
  ⟨by decide, rfl, rfl⟩

/-- C2 amended: for every search string built from the allowed set that
contains neither a dot nor a plus sign, sanitizeSearch is idempotent on its
accepted output: escaping is the identity there, and re-sanitizing the
output succeeds and returns it unchanged. -/
theorem sanitizeSearch_idempotent (s t : Str)
    (hall : ∀ c ∈ s, allowedChar c = true)
    (hnd : ∀ c ∈ s, c ≠ '.' ∧ c ≠ '+')
    (hout : sanitizeSearch (some s) = Except.ok (some t)) :
    sanitizeSearch (some t) = Except.ok (some t) := by
  have hmeta : ∀ c ∈ jsTrim s, metaChar c = false := by
    intro c hc
    have hcs := mem_jsTrim_subset s c hc
    have h1 := hall c hcs
    have h2 := hnd c hcs
    by_cases hm : metaChar c = true
    · rcases allowed_meta_char c hm h1 with h | h
      · exact absurd h h2.1
      · exact absurd h h2.2
    · simpa using hm
  simp only [sanitizeSearch] at hout
  split_ifs at hout with h1 h2 h3
  · simp at hout
  · simp at hout
  · have hesc : escapeRegex (jsTrim s) = jsTrim s := escapeRegex_id _ hmeta
    rw [hesc] at hout
    have ht : t = jsTrim s := by
      have := hout
      injection this with h
      injection h with h'
      exact h'.symm
    subst ht
    simp [sanitizeSearch, jsTrim_idem, h2, h3, hesc]

/-- Witness for C2 amended at the concrete allowed input "ab". -/
theorem sanitizeSearch_idempotent_witness :
    sanitizeSearch (some ("ab".toList)) = Except.ok (some ("ab".toList)) :=
  sanitizeSearch_idempotent ("ab".toList) ("ab".toList)
    (by decide) (by decide) (by rfl)

/-- C3 counterexample: in the orders filter builder a supplied orderDateTo
is handed to the upper bound unchanged, so a midnight date stays at
time-of-day zero instead of 23:59:59.999. -/
theorem orderFilters_dateTo_not_endOfDay :
    buildOrderFilters
      { page := 1, limit := 10, sortField := "createdAt".toList,
        sortOrder := SortOrder.desc, status := none, totalAmountFrom := none,
        totalAmountTo := none, orderDateFrom := none,
        orderDateTo := some ⟨2024, 1, 1, 0⟩, search := none } =
      { totalAmount := none, createdAt := some ⟨none, some ⟨2024, 1, 1, 0⟩⟩ } ∧
    (⟨2024, 1, 1, 0⟩ : JsDate).msOfDay ≠ 86399999 :=
  ⟨rfl, by decide⟩

/-- C3 amended: in the customer filter builder every supplied date-range
upper bound is extended to the end of its calendar day, time-of-day
23:59:59.999, whether or not the matching lower bound is present; the orders
filter builder passes its date upper bound through unchanged. -/
theorem customerFilters_dateTo_endOfDay (p : NormalizedCustomerParams)
    (d e : JsDate) :
    (p.registrationDateTo = some d →
      (buildCustomerFilters p).createdAt =
        some ⟨p.registrationDateFrom, some (endOfDay d)⟩ ∧
      (endOfDay d).msOfDay = 86399999) ∧
    (p.lastOrderDateTo = some e →
      (buildCustomerFilters p).lastOrderDate =
        some ⟨p.lastOrderDateFrom, some (endOfDay e)⟩ ∧
      (endOfDay e).msOfDay = 86399999) := by
  constructor
  · intro h
    exact ⟨by simp [buildCustomerFilters, h], rfl⟩
  · intro h
    exact ⟨by simp [buildCustomerFilters, h], rfl⟩

/-- Witness for C3 amended: a request with only the upper bounds supplied
gets both bounds extended to the last millisecond of their days. -/
theorem customerFilters_dateTo_endOfDay_witness :
    (buildCustomerFilters
      { page := 1, limit := 10, sortField := "createdAt".toList,
        sortOrder := SortOrder.desc, registrationDateFrom := none,
        registrationDateTo := some ⟨2024, 1, 1, 0⟩, lastOrderDateFrom := none,
        lastOrderDateTo := some ⟨2024, 2, 3, 0⟩, totalAmountFrom := none,
        totalAmountTo := none, orderCountFrom := none, orderCountTo := none,
        search := none }).createdAt =
      some ⟨none, some (endOfDay ⟨2024, 1, 1, 0⟩)⟩ ∧
    (endOfDay ⟨2024, 1, 1, 0⟩).msOfDay = 86399999 :=
  (customerFilters_dateTo_endOfDay _ ⟨2024, 1, 1, 0⟩ ⟨2024, 2, 3, 0⟩).1 rfl

/-- C4 counterexample: the orders sort builder places a field outside every
allow-list of the repository straight into the sort specification, so an
unrecognized sortField does reach the storage layer for orders. -/
theorem orderSort_unvalidated :
    buildOrderSort ("evil".toList) SortOrder.desc = [("evil".toList, -1)] ∧
    ("evil".toList) ∉ customerAllowedSortFields :=
  ⟨rfl, by decide⟩

/-- C4 amended: the customer filter builder validates sortField against its
fixed allow-list and silently falls back to createdAt when it is not
allow-listed, never erroring; the orders filter builder applies no
allow-list and uses a truthy sortField as-is in its sort specification. -/
theorem sortField_allowlist_customers_only (sf : Str) (so : SortOrder)
    (h : sf ∉ customerAllowedSortFields) :
    buildCustomerSort sf so = ("createdAt".toList, dirOf so) ∧
    buildOrderSort sf so = (if sf.isEmpty then [] else [(sf, dirOf so)]) := by
  constructor
  · simp [buildCustomerSort, h]
  · rfl

/-- Witness for C4 amended at the unrecognized field "evil". -/
theorem sortField_allowlist_customers_only_witness :
    buildCustomerSort ("evil".toList) SortOrder.asc = ("createdAt".toList, 1) ∧
    buildOrderSort ("evil".toList) SortOrder.asc = [("evil".toList, 1)] :=
  sortField_allowlist_customers_only ("evil".toList) SortOrder.asc (by decide)

/-- C7: for every input value, the recursive query and body sanitizer
returns a value in which no object key at any nesting depth starts with the
dollar operator sentinel or contains a dot path separator. -/
theorem sanitizeObject_no_dangerous_keys (v : JsValue) :
    keysSafeV (sanitizeObject v) = true :=
  sanitizeObject_keysSafe v
